import Mathlib

/-!
Verification of the RunawayBH equilibrium-profile solver scripts.

Shallow embedding over the reals of the two solver scripts
`AnalyticalSol/isothermal_sol.py` and `AnalyticalSol/polytropic_sol.py`.
Module-level Python globals become Lean constants; the globals that the
claims quantify over (the black-hole mass `M_bh`, the softening length
`epsilon`, and in the polytropic script the polytropic constant `K` and the
reference density `rho_vir`) are passed as explicit parameters to the
functions that read them.  NumPy floating-point arithmetic on well-formed
inputs is modelled by exact real arithmetic; the NumPy behaviour of a
fractional power of a negative base (which yields NaN) is modelled by an
`Option ℝ`-valued power function returning `none`.  The cooling-table
interpolant is modelled computably over ℚ.  Print statements have no
computational effect and are dropped.
-/

namespace IsothermalSol

noncomputable section

/-- Gravitational constant, cm^3 g^-1 s^-2 (`isothermal_sol.py`, line 5). -/
def G : ℝ := 6.67e-8

/-- Boltzmann constant, erg/K (line 6). -/
def kB : ℝ := 1.38e-16

/-- Proton mass, g (line 7). -/
def mp : ℝ := 1.67e-24

/-- Parsec in cm (line 8). -/
def pc : ℝ := 3.086e18

/-- Solar mass in g (line 9). -/
def Msun : ℝ := 1.989e33

/-- Mean molecular weight (line 10). -/
def mu : ℝ := 1.0

/-- Ambient temperature, K (line 13). -/
def T_amb : ℝ := 1e7

/-- Ambient sound speed `sqrt(kB*T_amb/(mu*mp))`, cm/s (line 14). -/
def cs_amb : ℝ := Real.sqrt (kB * T_amb / (mu * mp))

/-- Black-hole velocity, cm/s (line 15). -/
def v_bh : ℝ := 1000 * 1e5

/-- Central reference density, g/cm^3 (line 17). -/
def rho0 : ℝ := 1e-3 * mp

/-- Black-hole mass, g (line 18). -/
def M_bh : ℝ := 2e7 * Msun

/-- Bondi radius `2*G*M_bh/(cs_amb**2+v_bh**2)`, cm (line 19). -/
def R_bondi : ℝ := 2 * G * M_bh / (cs_amb ^ 2 + v_bh ^ 2)

/-- Softening length: the script sets `epsilon = R_bondi` (line 21). -/
def epsilon : ℝ := R_bondi

/-- Softened point-mass potential `Phi(r) = -1*G*M_bh/np.sqrt(r**2+epsilon**2)`
(lines 27-28); the globals `M_bh` and `epsilon` are explicit parameters. -/
def Phi (M eps r : ℝ) : ℝ := -1 * G * M / Real.sqrt (r ^ 2 + eps ^ 2)

/-- Isothermal density `rho0*np.exp((-Phi(r)+Phi(0))/(cs_amb**2))`
(lines 29-30). -/
def density_profile (M eps r : ℝ) : ℝ :=
  rho0 * Real.exp ((-Phi M eps r + Phi M eps 0) / cs_amb ^ 2)

/-- Isothermal pressure `density_profile(r)*cs_amb**2` (lines 32-33). -/
def pressure_profile (M eps r : ℝ) : ℝ :=
  density_profile M eps r * cs_amb ^ 2

/-- Isothermal temperature
`(pressure_profile(r)*mu*mp)/(density_profile(r)*kB)` (lines 35-36). -/
def temperature_profile (M eps r : ℝ) : ℝ :=
  pressure_profile M eps r * mu * mp / (density_profile M eps r * kB)

end

end IsothermalSol

namespace PolytropicSol

noncomputable section

/-- Gravitational constant, cm^3 g^-1 s^-2 (`polytropic_sol.py`, line 8). -/
def G : ℝ := 6.67e-8

/-- Boltzmann constant, erg/K (line 9). -/
def kB : ℝ := 1.38e-16

/-- Proton mass, g (line 10). -/
def mp : ℝ := 1.67e-24

/-- Parsec in cm (line 11). -/
def pc : ℝ := 3.086e18

/-- Solar mass in g (line 12). -/
def Msun : ℝ := 1.989e33

/-- Mean molecular weight (line 13). -/
def mu : ℝ := 1.0

/-- Polytropic index `5.0/3.0` (line 14). -/
def gamma : ℝ := 5.0 / 3.0

/-- `gm1 = gamma - 1` (line 15). -/
def gm1 : ℝ := gamma - 1

/-- Black-hole velocity, cm/s (line 19). -/
def v_bh : ℝ := 1000 * 1e5

/-- Black-hole mass, g (line 20). -/
def M_bh : ℝ := 2e7 * Msun

/-- Bondi radius as this script computes it: `2*G*M_bh/(v_bh**2)`
(line 21); note the sound-speed term is absent here. -/
def R_bondi : ℝ := 2 * G * M_bh / v_bh ^ 2

/-- Softening length `10*pc` (line 23). -/
def epsilon : ℝ := 10 * pc

/-- Reference (virial) radius `1e3*pc` (line 26). -/
def r_vir : ℝ := 1e3 * pc

/-- Virial temperature `G*M_bh*mp/(r_vir*kB)` (line 27). -/
def T_vir : ℝ := G * M_bh * mp / (r_vir * kB)

/-- CGM density `1e-3*mp` (line 31). -/
def rho_cgm : ℝ := 1e-3 * mp

/-- CGM temperature (line 32). -/
def T_cgm : ℝ := 1e6

/-- Virial reference density `rho_cgm*T_cgm/T_vir` (line 33). -/
def rho_vir : ℝ := rho_cgm * T_cgm / T_vir

/-- Polytropic constant `K = (kB*T_vir/(mu*mp))*(rho_vir**(1-gamma))`
(line 37). -/
def K : ℝ := kB * T_vir / (mu * mp) * rho_vir ^ ((1 : ℝ) - gamma)

/-- Softened point-mass potential `Phi(r) = -1*G*M_bh/np.sqrt(r**2+epsilon**2)`
(lines 59-60); the globals `M_bh` and `epsilon` are explicit parameters. -/
def Phi (M eps r : ℝ) : ℝ := -1 * G * M / Real.sqrt (r ^ 2 + eps ^ 2)

/-- NumPy floating-point power as used in `rho`, `pressure` and `entropy`:
every exponent applied there (`1/gm1 = 3/2` and `gamma = 5/3`) is
non-integer, so a negative base yields NaN, modelled as `none`; a
non-negative base yields the real power. -/
def npPow (x y : ℝ) : Option ℝ :=
  if 0 ≤ x then some (x ^ y) else none

/-- First bracketed term of `rho`: `(-1*(gm1/(K*gamma))*Phi(r))` (line 72);
the globals `K`, `M_bh`, `epsilon` are explicit parameters. -/
def term1 (Kc M eps r : ℝ) : ℝ := -1 * (gm1 / (Kc * gamma)) * Phi M eps r

/-- Second bracketed term of `rho`: `(-1*(gm1/(K*gamma))*Phi(r_vir))`
(line 73). -/
def term2 (Kc M eps : ℝ) : ℝ := -1 * (gm1 / (Kc * gamma)) * Phi M eps r_vir

/-- Condition of the warning branch `if (term1 < 0).any() or (term2 < 0).any()`
(line 76), per radius sample. -/
def rhoWarns (Kc M eps r : ℝ) : Prop :=
  term1 Kc M eps r < 0 ∨ term2 Kc M eps < 0

/-- Polytropic density `rho_vir+term1**(1/gm1)-term2**(1/gm1)` (lines 72-80);
the warning branch only prints, so it does not affect the returned value; a
NaN result (fractional power of a negative term) is `none`.  The globals
`rho_vir`, `K`, `M_bh`, `epsilon` are explicit parameters. -/
def rho (rho_virc Kc M eps r : ℝ) : Option ℝ :=
  match npPow (term1 Kc M eps r) (1 / gm1), npPow (term2 Kc M eps) (1 / gm1) with
  | some a, some b => some (rho_virc + a - b)
  | _, _ => none

/-- Polytropic pressure `K*(rho(r)**gamma)` (lines 81-82). -/
def pressure (rho_virc Kc M eps r : ℝ) : Option ℝ :=
  (rho rho_virc Kc M eps r).bind fun x => (npPow x gamma).map fun p => Kc * p

/-- Polytropic temperature `(K*mu*mp/kB)*(rho(r)**(gm1))` (lines 84-85). -/
def Temperature (rho_virc Kc M eps r : ℝ) : Option ℝ :=
  (rho rho_virc Kc M eps r).bind fun x =>
    (npPow x gm1).map fun p => Kc * mu * mp / kB * p

/-- Entropy `pressure(r)/(rho(r)**gamma)` (lines 87-88). -/
def entropy (rho_virc Kc M eps r : ℝ) : Option ℝ :=
  (pressure rho_virc Kc M eps r).bind fun P =>
    (rho rho_virc Kc M eps r).bind fun x =>
      (npPow x gamma).map fun q => P / q

/-- Free-fall time `np.sqrt(np.pow((r**2+epsilon**2),1.5)/(2*G*M_bh))`
(lines 97-98). -/
def free_fall_time (M eps r : ℝ) : ℝ :=
  Real.sqrt ((r ^ 2 + eps ^ 2) ^ (1.5 : ℝ) / (2 * G * M))

end

/-- Value at `x` of the straight line through `(x0, y0)` and `(x1, y1)`. -/
def segEval (x0 y0 x1 y1 x : ℚ) : ℚ := y0 + (y1 - y0) * (x - x0) / (x1 - x0)

/-- Model of `scipy.interpolate.interp1d(T_tab, Lambda_tab, kind="linear",
bounds_error=False, fill_value="extrapolate")` (lines 49-53) on the loaded
table of (temperature, Λ) rows, with exact rational arithmetic standing in
for floats: piecewise-linear interpolation between consecutive rows, and
linear extension of the boundary segment beyond either end of the table. -/
def interp1d_linear : List (ℚ × ℚ) → ℚ → ℚ
  | [], _ => 0
  | [(_, y0)], _ => y0
  | (x0, y0) :: (x1, y1) :: rest, x =>
    if x ≤ x1 then segEval x0 y0 x1 y1 x
    else
      match rest with
      | [] => segEval x0 y0 x1 y1 x
      | _ :: _ => interp1d_linear ((x1, y1) :: rest) x

/-- The interpolant `Lambda_interp` built from the cooling table (lines 52-53),
applied to a query temperature. -/
def Lambda_interp (tab : List (ℚ × ℚ)) (T : ℚ) : ℚ := interp1d_linear tab T

/-- `cool_lambda(T)` returns `Lambda_interp(T)` (lines 90-91). -/
def cool_lambda (tab : List (ℚ × ℚ)) (T : ℚ) : ℚ := Lambda_interp tab T

/-- The last two rows of a table with at least two rows. -/
def lastTwo : List (ℚ × ℚ) → (ℚ × ℚ) × (ℚ × ℚ)
  | [] => ((0, 0), (0, 0))
  | [p] => (p, p)
  | [p, q] => (p, q)
  | _ :: q :: r :: rest => lastTwo (q :: r :: rest)

end PolytropicSol

namespace IsothermalSol

lemma G_pos : 0 < G := by norm_num [G]

lemma kB_pos : 0 < kB := by norm_num [kB]

lemma mp_pos : 0 < mp := by norm_num [mp]

lemma mu_pos : 0 < mu := by norm_num [mu]

lemma rho0_pos : 0 < rho0 := by norm_num [rho0, mp]

lemma cs_amb_arg_pos : 0 < kB * T_amb / (mu * mp) := by
  norm_num [kB, T_amb, mu, mp]

lemma cs_amb_pos : 0 < cs_amb := Real.sqrt_pos.mpr cs_amb_arg_pos

lemma cs_amb_sq : cs_amb ^ 2 = kB * T_amb / (mu * mp) :=
  Real.sq_sqrt cs_amb_arg_pos.le

lemma sqrt_soft_pos {eps : ℝ} (heps : 0 < eps) (r : ℝ) :
    0 < Real.sqrt (r ^ 2 + eps ^ 2) :=
  Real.sqrt_pos.mpr (by positivity)

lemma Phi_neg {M eps : ℝ} (hM : 0 < M) (heps : 0 < eps) (r : ℝ) :
    Phi M eps r < 0 := by
  unfold Phi
  have h := sqrt_soft_pos heps r
  have hGM : 0 < G * M := mul_pos G_pos hM
  have he : -1 * G * M / Real.sqrt (r ^ 2 + eps ^ 2)
      = -(G * M / Real.sqrt (r ^ 2 + eps ^ 2)) := by ring
  rw [he]
  exact neg_neg_of_pos (div_pos hGM h)

lemma Phi_strict_mono {M eps : ℝ} (hM : 0 < M) (heps : 0 < eps)
    {r1 r2 : ℝ} (h0 : 0 ≤ r1) (h12 : r1 < r2) :
    Phi M eps r1 < Phi M eps r2 := by
  unfold Phi
  have hs1 : 0 < Real.sqrt (r1 ^ 2 + eps ^ 2) := sqrt_soft_pos heps r1
  have harg : r1 ^ 2 + eps ^ 2 < r2 ^ 2 + eps ^ 2 := by
    have : r1 ^ 2 < r2 ^ 2 := by
      apply pow_lt_pow_left₀ h12 h0
      norm_num
    linarith
  have hs12 : Real.sqrt (r1 ^ 2 + eps ^ 2) < Real.sqrt (r2 ^ 2 + eps ^ 2) :=
    Real.sqrt_lt_sqrt (by positivity) harg
  have hGM : 0 < G * M := mul_pos G_pos hM
  have he1 : -1 * G * M / Real.sqrt (r1 ^ 2 + eps ^ 2)
      = -(G * M / Real.sqrt (r1 ^ 2 + eps ^ 2)) := by ring
  have he2 : -1 * G * M / Real.sqrt (r2 ^ 2 + eps ^ 2)
      = -(G * M / Real.sqrt (r2 ^ 2 + eps ^ 2)) := by ring
  rw [he1, he2, neg_lt_neg_iff]
  exact div_lt_div_of_pos_left hGM hs1 hs12

lemma Phi_mono {M eps : ℝ} (hM : 0 < M) (heps : 0 < eps)
    {r1 r2 : ℝ} (h0 : 0 ≤ r1) (h12 : r1 ≤ r2) :
    Phi M eps r1 ≤ Phi M eps r2 := by
  rcases eq_or_lt_of_le h12 with h | h
  · rw [h]
  · exact (Phi_strict_mono hM heps h0 h).le

lemma density_profile_pos (M eps r : ℝ) : 0 < density_profile M eps r :=
  mul_pos rho0_pos (Real.exp_pos _)

end IsothermalSol

namespace PolytropicSol

lemma G_pos_poly : 0 < G := by norm_num [G]

lemma gm1_pos : 0 < gm1 := by norm_num [gm1, gamma]

lemma gamma_pos : 0 < gamma := by norm_num [gamma]

lemma M_bh_pos : 0 < M_bh := by norm_num [M_bh, Msun]

lemma epsilon_pos : 0 < epsilon := by norm_num [epsilon, pc]

lemma T_vir_pos : 0 < T_vir := by
  unfold T_vir G M_bh Msun mp r_vir pc kB
  positivity

lemma rho_vir_pos : 0 < rho_vir := by
  have h := T_vir_pos
  unfold rho_vir rho_cgm T_cgm mp
  positivity

lemma K_pos : 0 < K := by
  have h1 := T_vir_pos
  have h2 := rho_vir_pos
  unfold K kB mu mp
  positivity

lemma npPow_of_nonneg {x : ℝ} (y : ℝ) (hx : 0 ≤ x) :
    npPow x y = some (x ^ y) := by
  simp [npPow, hx]

lemma npPow_of_neg {x : ℝ} (y : ℝ) (hx : x < 0) :
    npPow x y = none := by
  simp [npPow, not_le.mpr hx]

lemma Phi_eq : Phi = IsothermalSol.Phi := rfl

lemma term_nonneg {Kc M eps : ℝ} (hK : 0 < Kc) (hM : 0 < M)
    (heps : 0 < eps) (r : ℝ) : 0 ≤ term1 Kc M eps r := by
  unfold term1
  have hPhi : Phi M eps r < 0 := by
    rw [Phi_eq]
    exact IsothermalSol.Phi_neg hM heps r
  have hc : 0 < gm1 / (Kc * gamma) :=
    div_pos gm1_pos (mul_pos hK gamma_pos)
  nlinarith

lemma term2_nonneg {Kc M eps : ℝ} (hK : 0 < Kc) (hM : 0 < M)
    (heps : 0 < eps) : 0 ≤ term2 Kc M eps :=
  term_nonneg hK hM heps r_vir

lemma term1_rvir (Kc M eps : ℝ) : term1 Kc M eps r_vir = term2 Kc M eps := rfl

lemma rho_rvir {rho_virc Kc M eps : ℝ} (h2 : 0 ≤ term2 Kc M eps) :
    rho rho_virc Kc M eps r_vir = some rho_virc := by
  unfold rho
  rw [term1_rvir, npPow_of_nonneg _ h2]
  simp

lemma rho_of_warns {rho_virc Kc M eps r : ℝ} (h : rhoWarns Kc M eps r) :
    rho rho_virc Kc M eps r = none := by
  unfold rho
  rcases h with h1 | h2
  · rw [npPow_of_neg _ h1]
  · rw [npPow_of_neg _ h2]
    rcases npPow (term1 Kc M eps r) (1 / gm1) with _ | a <;> rfl

lemma Phi_at_origin_unit : Phi 1 1 0 = -G := by
  unfold Phi
  have h : Real.sqrt ((0 : ℝ) ^ 2 + 1 ^ 2) = 1 := by
    norm_num
  rw [h]
  ring

lemma term1_neg_example : term1 (-1) 1 1 0 < 0 := by
  unfold term1
  rw [Phi_at_origin_unit]
  have hG := G_pos_poly
  unfold gm1 gamma
  nlinarith

lemma segEval_left (x0 y0 x1 y1 : ℚ) : segEval x0 y0 x1 y1 x0 = y0 := by
  simp [segEval]

lemma segEval_right {x0 x1 : ℚ} (y0 y1 : ℚ) (h : x0 < x1) :
    segEval x0 y0 x1 y1 x1 = y1 := by
  have hd : x1 - x0 ≠ 0 := sub_ne_zero.mpr h.ne'
  field_simp [segEval]

lemma interp_cons_le (x0 y0 x1 y1 : ℚ) (rest : List (ℚ × ℚ)) (x : ℚ)
    (h : x ≤ x1) :
    interp1d_linear ((x0, y0) :: (x1, y1) :: rest) x = segEval x0 y0 x1 y1 x := by
  cases rest <;> simp [interp1d_linear, h]

lemma interp_two_gt (x0 y0 x1 y1 : ℚ) (x : ℚ) (h : ¬ x ≤ x1) :
    interp1d_linear [(x0, y0), (x1, y1)] x = segEval x0 y0 x1 y1 x := by
  simp [interp1d_linear, h]

lemma interp_cons_step (x0 y0 x1 y1 : ℚ) (p : ℚ × ℚ) (rest : List (ℚ × ℚ))
    (x : ℚ) (h : ¬ x ≤ x1) :
    interp1d_linear ((x0, y0) :: (x1, y1) :: p :: rest) x =
      interp1d_linear ((x1, y1) :: p :: rest) x := by
  simp [interp1d_linear, h]

/-- Exactness of the interpolant at every tabulated row, for a table whose
temperatures are strictly increasing. -/
lemma interp_exact :
    ∀ (tab : List (ℚ × ℚ)), List.Pairwise (fun p q => p.1 < q.1) tab →
      ∀ i : Fin tab.length,
        interp1d_linear tab (tab.get i).1 = (tab.get i).2 := by
  intro tab
  induction tab with
  | nil => intro _ i; exact absurd i.2 (by simp)
  | cons p t ih =>
    intro hs i
    obtain ⟨hp, ht⟩ := List.pairwise_cons.mp hs
    cases t with
    | nil =>
      obtain ⟨px, py⟩ := p
      rcases i with ⟨iv, hi⟩
      have h1 : iv < 1 := by simpa using hi
      have hiv : iv = 0 := Nat.lt_one_iff.mp h1
      subst hiv
      simp [interp1d_linear]
    | cons q r =>
      obtain ⟨px, py⟩ := p
      obtain ⟨qx, qy⟩ := q
      have hpq : px < qx := hp (qx, qy) (List.mem_cons_self _ _)
      rcases i with ⟨iv, hi⟩
      match iv with
      | 0 =>
        rw [show ((((px, py) :: (qx, qy) :: r).get ⟨0, hi⟩)) = (px, py) from rfl]
        rw [interp_cons_le px py qx qy r px hpq.le]
        exact segEval_left px py qx qy
      | 1 =>
        rw [show ((((px, py) :: (qx, qy) :: r).get ⟨1, hi⟩)) = (qx, qy) from rfl]
        rw [interp_cons_le px py qx qy r qx le_rfl]
        exact segEval_right py qy hpq
      | Nat.succ (Nat.succ k) =>
        have hk : k < r.length := by
          simpa using Nat.lt_of_succ_lt_succ (Nat.lt_of_succ_lt_succ hi)
        have hmem : r.get ⟨k, hk⟩ ∈ r := List.get_mem r k hk
        have hgt : qx < (r.get ⟨k, hk⟩).1 := by
          obtain ⟨hq, _⟩ := List.pairwise_cons.mp ht
          exact hq _ hmem
        have hget : (((px, py) :: (qx, qy) :: r).get ⟨k + 2, hi⟩)
            = r.get ⟨k, hk⟩ := rfl
        rw [hget]
        cases r with
        | nil => exact absurd hk (by simp)
        | cons a s =>
          rw [interp_cons_step px py qx qy a s _ (not_le.mpr hgt)]
          have := ih ht ⟨k + 1, by simpa using hk⟩
          simpa using this

/-- Beyond the last tabulated temperature, the interpolant follows the
straight line through the last two rows. -/
lemma interp_gt_all :
    ∀ (rest : List (ℚ × ℚ)) (p q : ℚ × ℚ) (x : ℚ),
      (∀ e ∈ (p :: q :: rest), e.1 < x) →
      interp1d_linear (p :: q :: rest) x =
        segEval (lastTwo (p :: q :: rest)).1.1 (lastTwo (p :: q :: rest)).1.2
          (lastTwo (p :: q :: rest)).2.1 (lastTwo (p :: q :: rest)).2.2 x := by
  intro rest
  induction rest with
  | nil =>
    intro p q x hx
    obtain ⟨px, py⟩ := p
    obtain ⟨qx, qy⟩ := q
    have hq : qx < x := hx (qx, qy) (by simp)
    rw [interp_two_gt px py qx qy x (not_le.mpr hq)]
    rfl
  | cons a s ih =>
    intro p q x hx
    obtain ⟨px, py⟩ := p
    obtain ⟨qx, qy⟩ := q
    have hq : qx < x := hx (qx, qy) (by simp)
    rw [interp_cons_step px py qx qy a s x (not_le.mpr hq)]
    have hx2 : ∀ e ∈ ((qx, qy) :: a :: s), e.1 < x := by
      intro e he
      exact hx e (List.mem_cons_of_mem _ he)
    rw [ih (qx, qy) a x hx2]
    rfl

/-- Below the first tabulated temperature, the interpolant follows the
straight line through the first two rows. -/
lemma interp_lt_head (x0 y0 x1 y1 : ℚ) (rest : List (ℚ × ℚ)) (x : ℚ)
    (hs : x0 < x1) (hx : x < x0) :
    interp1d_linear ((x0, y0) :: (x1, y1) :: rest) x = segEval x0 y0 x1 y1 x :=
  interp_cons_le x0 y0 x1 y1 rest x (hx.trans hs).le

end PolytropicSol

/-- C1: for every softening length eps > 0 and black-hole mass M > 0, the
potential function Phi of both solver scripts returns
-G*M/sqrt(r^2 + eps^2); the square root is strictly positive (so the value
is a genuine finite quotient), the value is strictly negative for every
r ≥ 0, and Phi is strictly increasing in r on r ≥ 0. -/
theorem claim_C1_potential (M eps : ℝ) (hM : 0 < M) (heps : 0 < eps) :
    (∀ r : ℝ, 0 ≤ r →
      IsothermalSol.Phi M eps r
          = -(IsothermalSol.G * M) / Real.sqrt (r ^ 2 + eps ^ 2)
        ∧ 0 < Real.sqrt (r ^ 2 + eps ^ 2)
        ∧ IsothermalSol.Phi M eps r < 0)
    ∧ (∀ r1 r2 : ℝ, 0 ≤ r1 → r1 < r2 →
        IsothermalSol.Phi M eps r1 < IsothermalSol.Phi M eps r2)
    ∧ PolytropicSol.Phi = IsothermalSol.Phi := by
  refine ⟨fun r _ => ⟨?_, IsothermalSol.sqrt_soft_pos heps r,
      IsothermalSol.Phi_neg hM heps r⟩,
    fun r1 r2 h0 h12 => IsothermalSol.Phi_strict_mono hM heps h0 h12,
    PolytropicSol.Phi_eq⟩
  unfold IsothermalSol.Phi
  ring

/-- Witness for C1 at M = 1, eps = 1, r = 0. -/
theorem claim_C1_potential_witness : IsothermalSol.Phi 1 1 0 < 0 :=
  (((claim_C1_potential 1 1 one_pos one_pos).1 0 le_rfl)).2.2

/-- C2: in the isothermal closure the density returns
rho0 * exp((Phi(0) - Phi(r)) / cs^2); it equals rho0 exactly at r = 0 and is
monotonically non-increasing in r on r ≥ 0 for M > 0, eps > 0. -/
theorem claim_C2_isothermal_density (M eps : ℝ) (hM : 0 < M) (heps : 0 < eps) :
    (∀ r : ℝ, IsothermalSol.density_profile M eps r
        = IsothermalSol.rho0 * Real.exp
            ((IsothermalSol.Phi M eps 0 - IsothermalSol.Phi M eps r)
              / IsothermalSol.cs_amb ^ 2))
    ∧ IsothermalSol.density_profile M eps 0 = IsothermalSol.rho0
    ∧ ∀ r1 r2 : ℝ, 0 ≤ r1 → r1 ≤ r2 →
        IsothermalSol.density_profile M eps r2
          ≤ IsothermalSol.density_profile M eps r1 := by
  refine ⟨fun r => ?_, ?_, fun r1 r2 h0 h12 => ?_⟩
  · unfold IsothermalSol.density_profile
    congr 2
    ring
  · unfold IsothermalSol.density_profile
    simp
  · unfold IsothermalSol.density_profile
    have hPhi := IsothermalSol.Phi_mono hM heps h0 h12
    have hcsinv : (0 : ℝ) ≤ (IsothermalSol.cs_amb ^ 2)⁻¹ :=
      inv_nonneg.mpr (sq_nonneg _)
    have harg : -IsothermalSol.Phi M eps r2 + IsothermalSol.Phi M eps 0
        ≤ -IsothermalSol.Phi M eps r1 + IsothermalSol.Phi M eps 0 := by
      linarith
    have hdiv := mul_le_mul_of_nonneg_right harg hcsinv
    rw [div_eq_mul_inv, div_eq_mul_inv]
    exact mul_le_mul_of_nonneg_left (Real.exp_le_exp.mpr hdiv)
      IsothermalSol.rho0_pos.le

/-- Witness for C2 at M = 1, eps = 1: the density at r = 0 is rho0. -/
theorem claim_C2_isothermal_density_witness :
    IsothermalSol.density_profile 1 1 0 = IsothermalSol.rho0 :=
  (claim_C2_isothermal_density 1 1 one_pos one_pos).2.1

/-- C3: in the isothermal closure, pressure over density equals
kB*T_amb/(mu*mp) at every radius (exactly, in the real model, hence within
floating-point tolerance), and the temperature profile equals T_amb. -/
theorem claim_C3_temperature_invariant (M eps r : ℝ) :
    IsothermalSol.pressure_profile M eps r / IsothermalSol.density_profile M eps r
        = IsothermalSol.kB * IsothermalSol.T_amb
            / (IsothermalSol.mu * IsothermalSol.mp)
    ∧ IsothermalSol.temperature_profile M eps r = IsothermalSol.T_amb := by
  have hd : IsothermalSol.density_profile M eps r ≠ 0 :=
    (IsothermalSol.density_profile_pos M eps r).ne'
  constructor
  · unfold IsothermalSol.pressure_profile
    rw [mul_comm, mul_div_assoc, div_self hd, mul_one]
    exact IsothermalSol.cs_amb_sq
  · unfold IsothermalSol.temperature_profile IsothermalSol.pressure_profile
    rw [IsothermalSol.cs_amb_sq]
    have hkB : IsothermalSol.kB ≠ 0 := IsothermalSol.kB_pos.ne'
    have hmu : IsothermalSol.mu ≠ 0 := IsothermalSol.mu_pos.ne'
    have hmp : IsothermalSol.mp ≠ 0 := IsothermalSol.mp_pos.ne'
    field_simp
    ring

/-- C4: in the polytropic closure the density evaluated at the reference
radius r_vir returns exactly the reference density (the subtracted and
added bracketed powers cancel there), and for every radius with a
non-negative first bracketed term the density follows the stated formula
rho_vir + term1^(1/(gamma-1)) - term2^(1/(gamma-1)). -/
theorem claim_C4_rho_boundary (rho_virc Kc M eps : ℝ)
    (h2 : 0 ≤ PolytropicSol.term2 Kc M eps) :
    PolytropicSol.rho rho_virc Kc M eps PolytropicSol.r_vir = some rho_virc
    ∧ ∀ r : ℝ, 0 ≤ PolytropicSol.term1 Kc M eps r →
        PolytropicSol.rho rho_virc Kc M eps r
          = some (rho_virc
              + PolytropicSol.term1 Kc M eps r ^ (1 / PolytropicSol.gm1)
              - PolytropicSol.term2 Kc M eps ^ (1 / PolytropicSol.gm1)) := by
  refine ⟨PolytropicSol.rho_rvir h2, fun r h1 => ?_⟩
  unfold PolytropicSol.rho
  rw [PolytropicSol.npPow_of_nonneg _ h1, PolytropicSol.npPow_of_nonneg _ h2]

/-- Witness for C4 at the shipped scenario parameters. -/
theorem claim_C4_rho_boundary_witness :
    PolytropicSol.rho PolytropicSol.rho_vir PolytropicSol.K PolytropicSol.M_bh
        PolytropicSol.epsilon PolytropicSol.r_vir
      = some PolytropicSol.rho_vir :=
  (claim_C4_rho_boundary PolytropicSol.rho_vir PolytropicSol.K
    PolytropicSol.M_bh PolytropicSol.epsilon
    (PolytropicSol.term2_nonneg PolytropicSol.K_pos PolytropicSol.M_bh_pos
      PolytropicSol.epsilon_pos)).1

/-- C5: in the polytropic closure, at every radius where the density is a
well-defined positive value, entropy(r) = pressure(r)/rho(r)^gamma equals
the polytropic constant exactly (hence within floating-point tolerance). -/
theorem claim_C5_entropy_constant (rho_virc Kc M eps r v : ℝ)
    (hv : PolytropicSol.rho rho_virc Kc M eps r = some v) (hvpos : 0 < v) :
    PolytropicSol.entropy rho_virc Kc M eps r = some Kc := by
  unfold PolytropicSol.entropy PolytropicSol.pressure
  have hq : v ^ PolytropicSol.gamma ≠ 0 :=
    (Real.rpow_pos_of_pos hvpos _).ne'
  rw [hv]
  simp [PolytropicSol.npPow_of_nonneg PolytropicSol.gamma hvpos.le,
    mul_div_assoc, div_self hq]

/-- Witness for C5 at the shipped scenario parameters, at r = r_vir. -/
theorem claim_C5_entropy_constant_witness :
    PolytropicSol.entropy PolytropicSol.rho_vir PolytropicSol.K
        PolytropicSol.M_bh PolytropicSol.epsilon PolytropicSol.r_vir
      = some PolytropicSol.K :=
  claim_C5_entropy_constant PolytropicSol.rho_vir PolytropicSol.K
    PolytropicSol.M_bh PolytropicSol.epsilon PolytropicSol.r_vir
    PolytropicSol.rho_vir
    (PolytropicSol.rho_rvir
      (PolytropicSol.term2_nonneg PolytropicSol.K_pos PolytropicSol.M_bh_pos
        PolytropicSol.epsilon_pos))
    PolytropicSol.rho_vir_pos

/-- C6 counterexample: at the concrete parameters K = -1, M = 1, eps = 1,
rho_vir = 1 and radius r = 0 the first bracketed term is negative, so the
warning branch fires, yet the density returned for that sample is NaN
(`none` in the model) — the result is not marked invalid and a NaN IS
produced, contrary to the claim. -/
theorem claim_C6_counterexample :
    PolytropicSol.rhoWarns (-1) 1 1 0
    ∧ PolytropicSol.rho 1 (-1) 1 1 0 = none := by
  have h1 := PolytropicSol.term1_neg_example
  exact ⟨Or.inl h1, PolytropicSol.rho_of_warns (Or.inl h1)⟩

/-- C6 (amended): whenever a bracketed term of the polytropic density is
negative at some radius sample, the warning condition of the print branch
holds and the density returned for that sample is NaN (`none`); the code
prints a warning and continues but does not mark the sample invalid, and a
NaN is produced for it. -/
theorem claim_C6_negative_term_nan (rho_virc Kc M eps r : ℝ)
    (h : PolytropicSol.rhoWarns Kc M eps r) :
    PolytropicSol.rho rho_virc Kc M eps r = none :=
  PolytropicSol.rho_of_warns h

/-- Witness for C6 (amended) at the concrete counterexample input. -/
theorem claim_C6_negative_term_nan_witness :
    PolytropicSol.rho 1 (-1) 1 1 0 = none :=
  claim_C6_negative_term_nan 1 (-1) 1 1 0
    (Or.inl PolytropicSol.term1_neg_example)

/-- C7 counterexample: the polytropic script's Bondi radius
`2*G*M_bh/(v_bh**2)` differs from the closed-form value
`2*G*M/(c_s^2 + v^2)` with c_s = sqrt(kB*T_amb/(mu*m_p)) at T_amb = 1e7 K,
because it omits the sound-speed term; so the claimed equality does not
hold in every solver script that computes a Bondi radius. -/
theorem claim_C7_counterexample :
    PolytropicSol.R_bondi
      ≠ 2 * PolytropicSol.G * PolytropicSol.M_bh
          / (IsothermalSol.cs_amb ^ 2 + PolytropicSol.v_bh ^ 2) := by
  rw [IsothermalSol.cs_amb_sq]
  unfold PolytropicSol.R_bondi PolytropicSol.G PolytropicSol.M_bh
    PolytropicSol.Msun PolytropicSol.v_bh IsothermalSol.kB IsothermalSol.T_amb
    IsothermalSol.mu IsothermalSol.mp
  norm_num

/-- C7 (amended): in the isothermal script the computed Bondi radius equals
the closed-form value 2*G*M/(c_s^2 + v^2) with
c_s = sqrt(kB*T_amb/(mu*m_p)), and both R_bondi and c_s are strictly
positive (hence finite); the polytropic script instead computes
R_bondi = 2*G*M/v^2, omitting the sound-speed term, and that value is also
strictly positive. -/
theorem claim_C7_bondi_radius :
    IsothermalSol.R_bondi
        = 2 * IsothermalSol.G * IsothermalSol.M_bh
            / (IsothermalSol.cs_amb ^ 2 + IsothermalSol.v_bh ^ 2)
    ∧ IsothermalSol.cs_amb
        = Real.sqrt (IsothermalSol.kB * IsothermalSol.T_amb
            / (IsothermalSol.mu * IsothermalSol.mp))
    ∧ 0 < IsothermalSol.cs_amb
    ∧ 0 < IsothermalSol.R_bondi
    ∧ PolytropicSol.R_bondi
        = 2 * PolytropicSol.G * PolytropicSol.M_bh / PolytropicSol.v_bh ^ 2
    ∧ 0 < PolytropicSol.R_bondi := by
  refine ⟨rfl, rfl, IsothermalSol.cs_amb_pos, ?_, rfl, ?_⟩
  · unfold IsothermalSol.R_bondi
    apply div_pos
    · norm_num [IsothermalSol.G, IsothermalSol.M_bh, IsothermalSol.Msun]
    · apply add_pos_of_nonneg_of_pos (sq_nonneg _)
      norm_num [IsothermalSol.v_bh]
  · unfold PolytropicSol.R_bondi
    norm_num [PolytropicSol.G, PolytropicSol.M_bh, PolytropicSol.Msun,
      PolytropicSol.v_bh]

/-- C8: for a cooling table whose tabulated temperatures are strictly
increasing, the linear interpolant is exact at every tabulated row
(Lambda_interp(T_tab[i]) = Lambda_tab[i]); for queries below the first
tabulated temperature it extrapolates along the first segment's line, for
queries above the last tabulated temperature it extrapolates along the last
segment's line (it never fails), and cool_lambda returns exactly
Lambda_interp. -/
theorem claim_C8_cooling_interp (tab : List (ℚ × ℚ))
    (hs : List.Pairwise (fun p q => p.1 < q.1) tab) :
    (∀ i : Fin tab.length,
        PolytropicSol.Lambda_interp tab (tab.get i).1 = (tab.get i).2)
    ∧ (∀ x0 y0 x1 y1 rest, tab = (x0, y0) :: (x1, y1) :: rest →
        ∀ x : ℚ, x < x0 →
          PolytropicSol.Lambda_interp tab x = PolytropicSol.segEval x0 y0 x1 y1 x)
    ∧ (∀ p q rest, tab = p :: q :: rest →
        ∀ x : ℚ, (∀ e ∈ tab, e.1 < x) →
          PolytropicSol.Lambda_interp tab x =
            PolytropicSol.segEval (PolytropicSol.lastTwo tab).1.1
              (PolytropicSol.lastTwo tab).1.2 (PolytropicSol.lastTwo tab).2.1
              (PolytropicSol.lastTwo tab).2.2 x)
    ∧ ∀ T : ℚ, PolytropicSol.cool_lambda tab T = PolytropicSol.Lambda_interp tab T := by
  refine ⟨PolytropicSol.interp_exact tab hs, ?_, ?_, fun T => rfl⟩
  · intro x0 y0 x1 y1 rest htab x hx
    subst htab
    have h01 : x0 < x1 := by
      obtain ⟨hp, _⟩ := List.pairwise_cons.mp hs
      exact hp (x1, y1) (List.mem_cons_self _ _)
    exact PolytropicSol.interp_lt_head x0 y0 x1 y1 rest x h01 hx
  · intro p q rest htab x hx
    subst htab
    exact PolytropicSol.interp_gt_all rest p q x hx

/-- Witness for C8 on the concrete table [(1,10), (2,20), (4,25)]: the
interpolant reproduces the middle tabulated row exactly. -/
theorem claim_C8_cooling_interp_witness :
    PolytropicSol.Lambda_interp [(1, 10), (2, 20), (4, 25)] 2 = 20 := by
  have h := (claim_C8_cooling_interp [(1, 10), (2, 20), (4, 25)]
    (by decide)).1 ⟨1, by decide⟩
  simpa using h

/-- C9: with the shipped polytropic index gamma = 5/3 and any K > 0, M > 0,
eps > 0 (as the shipped scenario parameters are), both bracketed terms of
the polytropic density are non-negative at every radius (because Phi < 0),
the warning branch is never taken, and the fractional powers are applied to
non-negative arguments, producing a well-defined (non-NaN) density. -/
theorem claim_C9_warning_unreachable (Kc M eps r : ℝ)
    (hK : 0 < Kc) (hM : 0 < M) (heps : 0 < eps) :
    0 ≤ PolytropicSol.term1 Kc M eps r
    ∧ 0 ≤ PolytropicSol.term2 Kc M eps
    ∧ ¬ PolytropicSol.rhoWarns Kc M eps r
    ∧ ∀ rho_virc : ℝ, PolytropicSol.rho rho_virc Kc M eps r
        = some (rho_virc
            + PolytropicSol.term1 Kc M eps r ^ (1 / PolytropicSol.gm1)
            - PolytropicSol.term2 Kc M eps ^ (1 / PolytropicSol.gm1)) := by
  have h1 := PolytropicSol.term_nonneg hK hM heps r
  have h2 := PolytropicSol.term2_nonneg hK hM heps
  refine ⟨h1, h2, ?_, fun rho_virc => ?_⟩
  · rintro (h | h) <;> linarith
  · unfold PolytropicSol.rho
    rw [PolytropicSol.npPow_of_nonneg _ h1, PolytropicSol.npPow_of_nonneg _ h2]

/-- Witness for C9 at the shipped scenario parameters, at r = 0. -/
theorem claim_C9_warning_unreachable_witness :
    ¬ PolytropicSol.rhoWarns PolytropicSol.K PolytropicSol.M_bh
        PolytropicSol.epsilon 0 :=
  (claim_C9_warning_unreachable PolytropicSol.K PolytropicSol.M_bh
    PolytropicSol.epsilon 0 PolytropicSol.K_pos PolytropicSol.M_bh_pos
    PolytropicSol.epsilon_pos).2.2.1

/-- C10: for every M > 0 and eps > 0, the free-fall time
sqrt((r^2+eps^2)^1.5 / (2*G*M)) is strictly positive at every radius
(in particular finite and positive at r = 0 thanks to the softening
length) and strictly increasing in r on r ≥ 0. -/
theorem claim_C10_free_fall_time (M eps : ℝ) (hM : 0 < M) (heps : 0 < eps) :
    (∀ r : ℝ, 0 < PolytropicSol.free_fall_time M eps r)
    ∧ ∀ r1 r2 : ℝ, 0 ≤ r1 → r1 < r2 →
        PolytropicSol.free_fall_time M eps r1
          < PolytropicSol.free_fall_time M eps r2 := by
  have hG := PolytropicSol.G_pos_poly
  have hden : 0 < 2 * PolytropicSol.G * M := by positivity
  constructor
  · intro r
    unfold PolytropicSol.free_fall_time
    apply Real.sqrt_pos.mpr
    apply div_pos _ hden
    exact Real.rpow_pos_of_pos (by positivity) _
  · intro r1 r2 h0 h12
    unfold PolytropicSol.free_fall_time
    apply Real.sqrt_lt_sqrt
    · apply div_nonneg _ hden.le
      exact Real.rpow_nonneg (by positivity) _
    · apply div_lt_div_of_pos_right _ hden
      apply Real.rpow_lt_rpow (by positivity)
      · have hsq : r1 ^ 2 < r2 ^ 2 := by nlinarith
        linarith
      · norm_num

/-- Witness for C10 at M = 1, eps = 1, r = 0. -/
theorem claim_C10_free_fall_time_witness :
    0 < PolytropicSol.free_fall_time 1 1 0 :=
  (claim_C10_free_fall_time 1 1 one_pos one_pos).1 0
